import Mathlib

/-!
Verification of the payment-channel core (`channel.py`) and the
distance-vector router (`lightning.py`) of the Lightning repository.

The embedding is shallow:
* Python integers are `Int` (balances can be driven negative by the code,
  so `Nat` would be unfaithful), opaque tokens (addresses, pubkeys,
  script bytes) are `Nat` / `List Nat`;
* ECDSA signing is modelled symbolically: `private_key.sign(sighash)`
  becomes the term `Sig.ecdsa key sighash`, and a signature verifies under
  a key over a sighash exactly when it is that term (EUF-CMA idealisation);
* `SignatureHash(redeem, tx, 0, SIGHASH_ALL)` depends only on the redeem
  script, the spent outpoint and the output list (under SIGHASH_ALL the
  input's scriptSig is replaced by the redeem script), so a sighash is the
  record of those three components;
* each state-machine handler is a function
  `Channel → args → Except Err (Channel × List Call)` where `Call` records
  the outbound peer RPCs and chain broadcasts the handler performs and
  `Except.error` models a raised exception (a failed `assert` included);
* the worker loop of `task_handler` is one step `workerStep` over an
  association-list channel store.
-/

deriving instance DecidableEq for Except

/-- Error raised by a handler (a Python exception). -/
inductive Err where
  | assertFailed
  | counterparty
  | verifyFailed
  | protocolMismatch
deriving DecidableEq, Repr

/-- Content hashed by `SignatureHash(redeem, tx, 0, SIGHASH_ALL)`: the
redeem script, the outpoint being spent and the ordered outputs
(value, scriptPubKey token). -/
structure SigHash where
  redeem : List Nat
  prevout : Nat × Nat
  outs : List (Int × Nat)
deriving DecidableEq, Repr

/-- Symbolic signature values: the empty placeholder `b''`, a real ECDSA
signature by the holder of `key` over `sighash` (with the SIGHASH_ALL tag
appended), or arbitrary non-signature bytes. -/
inductive Sig where
  | empty
  | ecdsa (key : Nat) (sighash : SigHash)
  | raw (bytes : List Nat)
deriving DecidableEq, Repr

/-- Symbolic ECDSA verification: a signature verifies under `key` over
`h` exactly when it was produced by `key` over `h`. -/
def Sig.verifies (s : Sig) (key : Nat) (h : SigHash) : Bool :=
  decide (s = Sig.ecdsa key h)

/-- Whether a value is an ECDSA signature at all (by anyone, over anything). -/
def Sig.isEcdsa : Sig → Bool
  | .ecdsa _ _ => true
  | _ => false

/-- One element of a Bitcoin script as assembled by `AnchorScriptSig.to_script`. -/
inductive Elem where
  | num (n : Int)
  | sig (s : Sig)
  | bytes (b : List Nat)
  | op_pubkey
deriving DecidableEq, Repr

/-- The parsed anchor-input scriptSig (`class AnchorScriptSig`): which of the
two multisig slots is ours, the counterparty signature we hold, and the
two-of-two redeem script.  The constructor admits only indices 0 and 1
(it raises otherwise), hence `Fin 2`. -/
structure AnchorScriptSig where
  my_index : Fin 2
  sig : Sig
  redeem : List Nat
deriving DecidableEq, Repr

/-- Translation of `AnchorScriptSig.to_script(sig)`: emit
`[0, sig1, sig2, redeem]` where our slot gets the supplied element `s`
(`OP_PUBKEY` when no own signature is supplied yet) and the other slot the
stored counterparty signature. -/
def AnchorScriptSig.to_script (a : AnchorScriptSig) (s : Elem) : List Elem :=
  if a.my_index = 0 then
    [Elem.num 0, s, Elem.sig a.sig, Elem.bytes a.redeem]
  else
    [Elem.num 0, Elem.sig a.sig, s, Elem.bytes a.redeem]

/-- A transaction output (`CMutableTxOut`): value in satoshis and an opaque
scriptPubKey token. -/
structure TxOut where
  nValue : Int
  scriptPubKey : Nat
deriving DecidableEq, Repr

/-- The anchor input (`CMutableTxIn`): outpoint plus parsed scriptSig. -/
structure AnchorIn where
  prevout : Nat × Nat
  scriptSig : AnchorScriptSig
deriving DecidableEq, Repr

/-- A single-input transaction as built by the channel code: the anchor
outpoint, the (possibly assembled) input script, and the ordered outputs.
Under SIGHASH_ALL the scriptSig is not part of the signed content. -/
structure Tx where
  prevout : Nat × Nat
  scriptSig : List Elem
  outs : List (Int × Nat)
deriving DecidableEq, Repr

/-- Sighash of a transaction for the anchor input, given the redeem script
(`SignatureHash(redeem, transaction, 0, SIGHASH_ALL)`). -/
def sighash_of (redeem : List Nat) (tx : Tx) : SigHash :=
  { redeem := redeem, prevout := tx.prevout, outs := tx.outs }

/-- The channel state strings of `channel.py`. -/
inductive State where
  | begin
  | open_wait_1
  | open_wait_1_5
  | open_wait_2
  | normal
  | send_wait_1
  | send_wait_1_5
  | close_wait_1
  | end_
deriving DecidableEq, Repr

/-- The persistent per-peer channel control block (`class Channel`). -/
structure Channel where
  address : Nat
  state : State
  anchor : AnchorIn
  our : TxOut
  their : TxOut
  cmd_id : Option Nat
deriving DecidableEq, Repr

/-- Outbound effects of a handler: peer RPCs (`self.bob.<name>(...)`) and
chain broadcasts (`bitcoind.sendrawtransaction`).  `error_out` is the
best-effort `bob.error(...)` the worker sends when a handler raises. -/
inductive Call where
  | update (amount : Int)
  | update_accept (amount : Int) (sig : Sig)
  | update_signature (amount : Int) (sig : Sig)
  | close (sig : Sig)
  | close_ack
  | broadcast (tx : Tx)
  | error_out
deriving DecidableEq, Repr

/-- Pair an output with its (value, scriptPubKey) sighash content. -/
def TxOut.pair (o : TxOut) : Int × Nat := (o.nValue, o.scriptPubKey)

/-- Translation of `Channel.sig_for_them`: sign the mirror commitment
`CMutableTransaction([anchor], [their, our])` — the counterparty's payout
first — over the anchor redeem script. -/
def Channel.sig_for_them (privkey : Nat) (c : Channel) : Sig :=
  Sig.ecdsa privkey
    { redeem := c.anchor.scriptSig.redeem
      prevout := c.anchor.prevout
      outs := [c.their.pair, c.our.pair] }

/-- Our own commitment transaction skeleton
(`CMutableTransaction([anchor], [our, their])`), before signing. -/
def Channel.commitment_tx (c : Channel) : Tx :=
  { prevout := c.anchor.prevout, scriptSig := [], outs := [c.our.pair, c.their.pair] }

/-- Sighash of our current commitment transaction. -/
def Channel.commitment_sighash (c : Channel) : SigHash :=
  sighash_of c.anchor.scriptSig.redeem c.commitment_tx

/-- Translation of `Channel.unsigned_settlement`: outputs are placed in
anchor-index order (index-0 party first) so both sides build the same
transaction; the input script is still unassembled. -/
def Channel.unsigned_settlement (c : Channel) : Tx :=
  if c.anchor.scriptSig.my_index = 0 then
    { prevout := c.anchor.prevout, scriptSig := [], outs := [c.our.pair, c.their.pair] }
  else
    { prevout := c.anchor.prevout, scriptSig := [], outs := [c.their.pair, c.our.pair] }

/-- Translation of `Channel.settlement_sig`: sign the settlement
transaction over the anchor redeem script. -/
def Channel.settlement_sig (privkey : Nat) (c : Channel) : Sig :=
  Sig.ecdsa privkey (sighash_of c.anchor.scriptSig.redeem c.unsigned_settlement)

/-- Translation of `Channel.signed_commitment`: sign our commitment,
assemble the anchor scriptSig around the stored counterparty signature,
then run script verification (`VerifyScript`) of the assembled scriptSig
against the redeem script's P2SH output and raise if it fails.
`verify` abstracts the chain library's script interpreter: it receives the
assembled input script, the redeem script whose P2SH output is being spent,
and the spending transaction. -/
def Channel.signed_commitment (verify : List Elem → List Nat → Tx → Bool)
    (privkey : Nat) (c : Channel) : Except Err Tx :=
  let tx := c.commitment_tx
  let sig := Sig.ecdsa privkey (sighash_of c.anchor.scriptSig.redeem tx)
  let tx := { tx with scriptSig := c.anchor.scriptSig.to_script (Elem.sig sig) }
  if verify tx.scriptSig c.anchor.scriptSig.redeem tx then
    Except.ok tx
  else
    Except.error Err.verifyFailed

/-- Translation of `Channel.signed_settlement`: sign the settlement,
store `their_sig` into the anchor scriptSig, assemble, verify as in
`signed_commitment`, and raise if verification fails. -/
def Channel.signed_settlement (verify : List Elem → List Nat → Tx → Bool)
    (privkey : Nat) (c : Channel) (their_sig : Sig) : Except Err Tx :=
  let tx := c.unsigned_settlement
  let sig := Sig.ecdsa privkey (sighash_of c.anchor.scriptSig.redeem tx)
  let a := { c.anchor.scriptSig with sig := their_sig }
  let tx := { tx with scriptSig := a.to_script (Elem.sig sig) }
  if verify tx.scriptSig c.anchor.scriptSig.redeem tx then
    Except.ok tx
  else
    Except.error Err.verifyFailed

/-- Handler `cmd_send` (`Channel.send`): assert `state == 'normal'`, record
the command id, call `bob.update(amount)`, move to `send_wait_1`.  The code
performs no comparison of `amount` with `our.nValue`. -/
def Channel.send (c : Channel) (cmd_id : Nat) (amount : Int) :
    Except Err (Channel × List Call) :=
  if c.state = State.normal then
    Except.ok ({ c with cmd_id := some cmd_id, state := State.send_wait_1 },
               [Call.update amount])
  else
    Except.error Err.assertFailed

/-- Handler `pkt_update` (`Channel.update`): assert `state == 'normal'` and
`amount >= 0`; temporarily move `amount` from `our` to `their`, sign the
mirror commitment at those balances, revert, send
`update_accept(amount, sig)` and move to `send_wait_1.5`. -/
def Channel.update (privkey : Nat) (c : Channel) (amount : Int) :
    Except Err (Channel × List Call) :=
  if c.state = State.normal ∧ 0 ≤ amount then
    let tmp := { c with our.nValue := c.our.nValue - amount,
                        their.nValue := c.their.nValue + amount }
    let sig := Channel.sig_for_them privkey tmp
    Except.ok ({ c with state := State.send_wait_1_5 },
               [Call.update_accept amount sig])
  else
    Except.error Err.assertFailed

/-- Handler `pkt_update_accept` (`Channel.update_accept`): assert
`state == 'send_wait_1'`; commit `our -= amount`, `their += amount`, store
the received signature, send `update_signature(amount, sig_for_them())`
over the new balances, complete the command, move to `normal`.  No
verification of the received signature is performed. -/
def Channel.update_accept (privkey : Nat) (c : Channel) (amount : Int) (sig : Sig) :
    Except Err (Channel × List Call) :=
  if c.state = State.send_wait_1 then
    let c := { c with our.nValue := c.our.nValue - amount,
                      their.nValue := c.their.nValue + amount,
                      anchor.scriptSig.sig := sig }
    Except.ok ({ c with cmd_id := none, state := State.normal },
               [Call.update_signature amount (Channel.sig_for_them privkey c)])
  else
    Except.error Err.assertFailed

/-- Handler `pkt_update_signature` (`Channel.update_signature`): assert
`state == 'send_wait_1.5'` and `amount >= 0`; commit `our += amount`,
`their -= amount`, store the received signature, move to `normal`.  No
verification of the received signature is performed. -/
def Channel.update_signature (c : Channel) (amount : Int) (sig : Sig) :
    Except Err (Channel × List Call) :=
  if c.state = State.send_wait_1_5 ∧ 0 ≤ amount then
    Except.ok ({ c with our.nValue := c.our.nValue + amount,
                        their.nValue := c.their.nValue - amount,
                        anchor.scriptSig.sig := sig,
                        state := State.normal }, [])
  else
    Except.error Err.assertFailed

/-- Handler `cmd_close` (`Channel.close_command`): assert
`state == 'normal'`, send `close(settlement_sig())`, move to `close_wait_1`. -/
def Channel.close_command (privkey : Nat) (c : Channel) (cmd_id : Nat) :
    Except Err (Channel × List Call) :=
  if c.state = State.normal then
    Except.ok ({ c with cmd_id := some cmd_id, state := State.close_wait_1 },
               [Call.close (Channel.settlement_sig privkey c)])
  else
    Except.error Err.assertFailed

/-- Handler `pkt_close` (`Channel.close_packet`): assert `state == 'normal'`;
assemble and verify the fully signed settlement, broadcast it, send
`close_ack`, and set the state to `end`.  Assembling mutates the record:
`signed_settlement` writes the received settlement signature through the
`AnchorScriptSig` object that the copied transaction shares with
`self.anchor` (`CMutableTxIn.from_txin` passes the scriptSig by
reference), so the record the worker persists also carries
`their_sig := sig`. -/
def Channel.close_packet (verify : List Elem → List Nat → Tx → Bool)
    (privkey : Nat) (c : Channel) (sig : Sig) :
    Except Err (Channel × List Call) :=
  if c.state = State.normal then
    match Channel.signed_settlement verify privkey c sig with
    | Except.ok tx =>
        Except.ok ({ c with anchor.scriptSig.sig := sig, state := State.end_ },
                   [Call.broadcast tx, Call.close_ack])
    | Except.error e => Except.error e
  else
    Except.error Err.assertFailed

/-- Handler `pkt_close_ack` (`Channel.close_ack`): assert
`state == 'close_wait_1'`, complete the command, set the state to `end`. -/
def Channel.close_ack (c : Channel) : Except Err (Channel × List Call) :=
  if c.state = State.close_wait_1 then
    Except.ok ({ c with cmd_id := none, state := State.end_ }, [])
  else
    Except.error Err.assertFailed

/-- Handler `pkt_error` (`Channel.error`): always raises. -/
def Channel.error (_c : Channel) : Except Err (Channel × List Call) :=
  Except.error Err.counterparty

/-- Tasks drawn from the queue for the update/close part of the protocol
(the opening tasks interact with UTXO selection and are outside the claims
under verification). -/
inductive ChanTask where
  | cmd_send (cmd_id : Nat) (amount : Int)
  | pkt_update (amount : Int)
  | pkt_update_accept (amount : Int) (sig : Sig)
  | pkt_update_signature (amount : Int) (sig : Sig)
  | cmd_close (cmd_id : Nat)
  | pkt_close (sig : Sig)
  | pkt_close_ack
  | pkt_error
deriving DecidableEq, Repr

/-- Translation of `Channel.handle`: dispatch a task through the handler
table. -/
def Channel.handle (verify : List Elem → List Nat → Tx → Bool) (privkey : Nat)
    (c : Channel) : ChanTask → Except Err (Channel × List Call)
  | ChanTask.cmd_send cmd_id amount => Channel.send c cmd_id amount
  | ChanTask.pkt_update amount => Channel.update privkey c amount
  | ChanTask.pkt_update_accept amount sig => Channel.update_accept privkey c amount sig
  | ChanTask.pkt_update_signature amount sig => Channel.update_signature c amount sig
  | ChanTask.cmd_close cmd_id => Channel.close_command privkey c cmd_id
  | ChanTask.pkt_close sig => Channel.close_packet verify privkey c sig
  | ChanTask.pkt_close_ack => Channel.close_ack c
  | ChanTask.pkt_error => Channel.error c

/-- A complete run of the update protocol started by `cmd_send`: the
sender handles `cmd_send`, each emitted peer call is delivered as the
corresponding packet to the other side, in the order
`cmd_send → pkt_update → pkt_update_accept → pkt_update_signature`.
Returns the two final channel records (sender first). -/
def complete_send (verify : List Elem → List Nat → Tx → Bool)
    (privA privB : Nat) (a b : Channel) (cmd_id : Nat) (x : Int) :
    Except Err (Channel × Channel) := do
  let (a1, calls1) ← Channel.handle verify privA a (ChanTask.cmd_send cmd_id x)
  match calls1 with
  | [Call.update amt] => do
    let (b1, calls2) ← Channel.handle verify privB b (ChanTask.pkt_update amt)
    match calls2 with
    | [Call.update_accept amt2 sig2] => do
      let (a2, calls3) ← Channel.handle verify privA a1 (ChanTask.pkt_update_accept amt2 sig2)
      match calls3 with
      | [Call.update_signature amt3 sig3] => do
        let (b2, _calls4) ← Channel.handle verify privB b1 (ChanTask.pkt_update_signature amt3 sig3)
        pure (a2, b2)
      | _ => Except.error Err.protocolMismatch
    | _ => Except.error Err.protocolMismatch
  | _ => Except.error Err.protocolMismatch

/-- A fresh control block (`Channel.__init__`), as built by the worker when
no record exists for the peer: state `begin`, null anchor, zero outputs. -/
def Channel.init (address : Nat) : Channel :=
  { address := address
    state := State.begin
    anchor := { prevout := (0, 0), scriptSig := { my_index := 0, sig := Sig.empty, redeem := [] } }
    our := { nValue := 0, scriptPubKey := 0 }
    their := { nValue := 0, scriptPubKey := 0 }
    cmd_id := none }

/-- The channel store (leveldb keyed by peer address), as an association
list. -/
abbrev Store := List (Nat × Channel)

/-- Read a record from the store (`database.Get`). -/
def store_get (db : Store) (address : Nat) : Option Channel :=
  (List.find? (fun r => r.1 = address) db).map (fun r => r.2)

/-- Write a record back (`database.Put`): replace any record under the key. -/
def store_put (db : Store) (address : Nat) (c : Channel) : Store :=
  List.filter (fun r => ¬ r.1 = address) db ++ [(address, c)]

/-- One iteration of the `task_handler` worker loop: load the record for
the task's peer (a fresh `Channel(address)` when absent), run the handler;
when it raises, best-effort send `bob.error(...)`, re-raise (the worker
dies) and crucially do not write the record back; otherwise persist the
new record.  Returns the store after the step, the outbound calls, and
whether the worker died. -/
def workerStep (verify : List Elem → List Nat → Tx → Bool) (privkey : Nat)
    (db : Store) (address : Nat) (task : ChanTask) :
    Store × List Call × Bool :=
  let c := (store_get db address).getD (Channel.init address)
  match Channel.handle verify privkey c task with
  | Except.ok (c1, calls) => (store_put db address c1, calls, false)
  | Except.error _ => (db, [Call.error_out], true)

/-- Routing state of `lightning.py`: the PEERS table (address, fees) and
the ROUTES table (address, cost, nexthop), in insertion order. -/
structure RouterState where
  peers : List (Nat × Nat)
  routes : List (Nat × Nat × Nat)
deriving DecidableEq, Repr

/-- SELECT cost, nexthop FROM ROUTES WHERE address = ? (first row). -/
def RouterState.lookup (st : RouterState) (address : Nat) : Option (Nat × Nat) :=
  (List.find? (fun r => r.1 = address) st.routes).map (fun r => r.2)

/-- An outbound `bob.update(g.addr, address, cost + fees)` RPC issued to a
peer by the routing update. -/
structure RouteCall where
  peer : Nat
  next_hop : Nat
  destination : Nat
  cost : Nat
deriving DecidableEq, Repr

/-- Translation of `lightning.update(next_hop, address, cost)`: return
unchanged when an existing route is at least as cheap or the destination
is ourselves; otherwise replace the route row for the destination and
tell every peer the new cost plus that peer's fee. -/
def router_update (self_addr : Nat) (st : RouterState)
    (next_hop address cost : Nat) : RouterState × List RouteCall :=
  let row := (List.find? (fun r => r.1 = address) st.routes).map (fun r => r.2.1)
  if (match row with | some c => decide (c ≤ cost) | none => false) || decide (address = self_addr) then
    (st, [])
  else
    let routes := List.filter (fun r => ¬ r.1 = address) st.routes ++ [(address, cost, next_hop)]
    ({ st with routes := routes },
     List.map (fun p => { peer := p.1, next_hop := self_addr,
                          destination := address, cost := cost + p.2 }) st.peers)

/-- Modelled from the spec: the `pkt_update_accept` handler as §4.2/§3 of
the spec describe it — before committing, verify the received signature by
`their_pubkey` over the sighash of our commitment at the new balances, and
fail with an invalid-signature error otherwise.  This definition follows
the spec's words and exists only to be compared with `Channel.update_accept`,
which is translated from the source. -/
def update_accept_checked (their_pubkey privkey : Nat) (c : Channel)
    (amount : Int) (sig : Sig) : Except Err (Channel × List Call) :=
  if c.state = State.send_wait_1 then
    let c1 := { c with our.nValue := c.our.nValue - amount,
                       their.nValue := c.their.nValue + amount,
                       anchor.scriptSig.sig := sig }
    if Sig.verifies sig their_pubkey c1.commitment_sighash then
      Except.ok ({ c1 with cmd_id := none, state := State.normal },
                 [Call.update_signature amount (Channel.sig_for_them privkey c1)])
    else
      Except.error Err.verifyFailed
  else
    Except.error Err.assertFailed

/-- Swap the second and third elements of a four-element script. -/
def swap12 : List Elem → List Elem
  | [a, b, c, d] => [a, c, b, d]
  | l => l

/-- Script interpreter that accepts everything (a chain on which the
assembled script is valid). -/
def verifyT : List Elem → List Nat → Tx → Bool := fun _ _ _ => true

/-- Script interpreter that rejects everything (a chain on which the
assembled script is invalid). -/
def verifyF : List Elem → List Nat → Tx → Bool := fun _ _ _ => false

/-- A concrete two-of-two redeem script token list
(`[2, pubkey_A, pubkey_B, 2, OP_CHECKMULTISIG]` with pubkeys 8 and 5). -/
def redeem0 : List Nat := [2, 8, 5, 2, 174]

/-- A concrete channel record in state `normal`: 10 satoshis ours, 5 theirs. -/
def cNormal : Channel :=
  { address := 7
    state := State.normal
    anchor := { prevout := (42, 0)
                scriptSig := { my_index := 1, sig := Sig.empty, redeem := redeem0 } }
    our := { nValue := 10, scriptPubKey := 1 }
    their := { nValue := 5, scriptPubKey := 2 }
    cmd_id := none }

/-- The same record waiting for `pkt_update_accept`. -/
def cSend1 : Channel := { cNormal with state := State.send_wait_1, cmd_id := some 0 }

/-- The same record waiting for `pkt_close_ack`. -/
def cCloseW : Channel := { cNormal with state := State.close_wait_1, cmd_id := some 1 }

/-- The counterparty's view of `cNormal`: complementary index, swapped
balances and payout addresses over the same anchor. -/
def cPeer : Channel :=
  { address := 9
    state := State.normal
    anchor := { prevout := (42, 0)
                scriptSig := { my_index := 0, sig := Sig.empty, redeem := redeem0 } }
    our := { nValue := 5, scriptPubKey := 2 }
    their := { nValue := 10, scriptPubKey := 1 }
    cmd_id := none }

/-- A channel store holding `cNormal` under the peer key 7. -/
def db0 : Store := [(7, cNormal)]

/-- A channel store holding `cCloseW` under the peer key 7. -/
def db1 : Store := [(7, cCloseW)]

/-- A concrete routing state: peers 3 (fee 100) and 4 (fee 7), one route
to 11 of cost 50 via 3. -/
def rs0 : RouterState := { peers := [(3, 100), (4, 7)], routes := [(11, 50, 3)] }

/-- The fully signed settlement transaction assembled from `cNormal` with
counterparty signature `Sig.raw [1]` on an accepting chain. -/
def tx0 : Tx :=
  { prevout := (42, 0)
    scriptSig := [Elem.num 0, Elem.sig (Sig.raw [1]),
                  Elem.sig (Sig.ecdsa 3 { redeem := redeem0, prevout := (42, 0),
                                          outs := [(5, 2), (10, 1)] }),
                  Elem.bytes redeem0]
    outs := [(5, 2), (10, 1)] }

/-- Every slot index of a two-of-two anchor is 0 or 1. -/
theorem fin_two_cases (i : Fin 2) : i = 0 ∨ i = 1 := by
  revert i
  decide

/-- C7: anchor scriptSig assembly always emits `[0, slot0_sig, slot1_sig,
redeem]`; with `my_index = 0` the supplied signature fills slot 1 of the
script and the stored counterparty signature slot 2, with `my_index = 1`
the two are swapped, so for fixed signatures and redeem script the two
assemblies differ exactly by swapping slots 1 and 2. -/
theorem to_script_orders_by_index (s : Elem) (stored : Sig) (redeem : List Nat) :
    AnchorScriptSig.to_script { my_index := 0, sig := stored, redeem := redeem } s
      = [Elem.num 0, s, Elem.sig stored, Elem.bytes redeem] ∧
    AnchorScriptSig.to_script { my_index := 1, sig := stored, redeem := redeem } s
      = [Elem.num 0, Elem.sig stored, s, Elem.bytes redeem] ∧
    AnchorScriptSig.to_script { my_index := 1, sig := stored, redeem := redeem } s
      = swap12 (AnchorScriptSig.to_script { my_index := 0, sig := stored, redeem := redeem } s) := by
  refine ⟨rfl, ?_, ?_⟩ <;> simp [AnchorScriptSig.to_script, swap12]

/-- C6: the unsigned settlement transaction puts the index-0 party's payout
first and the index-1 party's second, so two channel records with
complementary `my_index`, swapped balances and payout outputs over the same
anchor build identical settlement transactions. -/
theorem unsigned_settlement_symmetric (c1 c2 : Channel)
    (hp : c2.anchor.prevout = c1.anchor.prevout)
    (hi : c2.anchor.scriptSig.my_index ≠ c1.anchor.scriptSig.my_index)
    (ho : c2.our = c1.their) (ht : c2.their = c1.our) :
    Channel.unsigned_settlement c1 = Channel.unsigned_settlement c2 ∧
    (c1.anchor.scriptSig.my_index = 0 →
      (Channel.unsigned_settlement c1).outs = [c1.our.pair, c1.their.pair]) ∧
    (c1.anchor.scriptSig.my_index = 1 →
      (Channel.unsigned_settlement c1).outs = [c1.their.pair, c1.our.pair]) := by
  rcases fin_two_cases c1.anchor.scriptSig.my_index with h1 | h1 <;>
    rcases fin_two_cases c2.anchor.scriptSig.my_index with h2 | h2 <;>
      first
      | exact absurd (h2.trans h1.symm) hi
      | refine ⟨?_, ?_, ?_⟩ <;>
          simp [Channel.unsigned_settlement, h1, h2, hp, ho, ht]

/-- C6 witness: the two concrete complementary records `cNormal` (index 1)
and `cPeer` (index 0) build the same settlement transaction. -/
theorem unsigned_settlement_symmetric_witness :
    Channel.unsigned_settlement cPeer = Channel.unsigned_settlement cNormal ∧
    (cPeer.anchor.scriptSig.my_index = 0 →
      (Channel.unsigned_settlement cPeer).outs = [cPeer.our.pair, cPeer.their.pair]) ∧
    (cPeer.anchor.scriptSig.my_index = 1 →
      (Channel.unsigned_settlement cPeer).outs = [cPeer.their.pair, cPeer.our.pair]) :=
  unsigned_settlement_symmetric cPeer cNormal (by decide) (by decide) (by decide) (by decide)

/-- C5: after assembling a fully signed commitment or settlement
transaction the code runs script verification of the assembled anchor
input script against the anchor redeem script's P2SH output, returns the
transaction only when verification passes, and raises whenever the
interpreter rejects every script. -/
theorem signed_tx_verified (verify : List Elem → List Nat → Tx → Bool)
    (privkey : Nat) (c : Channel) (their_sig : Sig) :
    (∀ tx, Channel.signed_commitment verify privkey c = Except.ok tx →
      verify tx.scriptSig c.anchor.scriptSig.redeem tx = true) ∧
    (∀ tx, Channel.signed_settlement verify privkey c their_sig = Except.ok tx →
      verify tx.scriptSig c.anchor.scriptSig.redeem tx = true) ∧
    ((∀ s r t, verify s r t = false) →
      Channel.signed_commitment verify privkey c = Except.error Err.verifyFailed ∧
      Channel.signed_settlement verify privkey c their_sig = Except.error Err.verifyFailed) := by
  refine ⟨?_, ?_, fun hF => ?_⟩
  · intro tx h
    simp only [Channel.signed_commitment] at h
    split at h
    · cases h
      assumption
    · cases h
  · intro tx h
    simp only [Channel.signed_settlement] at h
    split at h
    · cases h
      assumption
    · cases h
  · constructor <;>
      simp [Channel.signed_commitment, Channel.signed_settlement, hF]

/-- C5 witness: on a chain whose interpreter rejects the assembled script,
both assemblies raise (at the concrete record `cNormal`). -/
theorem signed_tx_verified_witness :
    Channel.signed_commitment verifyF 3 cNormal = Except.error Err.verifyFailed ∧
    Channel.signed_settlement verifyF 3 cNormal Sig.empty = Except.error Err.verifyFailed :=
  (signed_tx_verified verifyF 3 cNormal Sig.empty).2.2 (fun _ _ _ => rfl)

/-- C1 (amended): the handlers for `pkt_update_accept` and
`pkt_update_signature` perform no signature verification — in the
expected state they commit the new balances and store the received
signature as `their_sig` whatever byte-string it is, returning to
`normal`, so no validity invariant on `their_sig` is established. -/
theorem update_handlers_store_unverified (privkey : Nat) (c : Channel)
    (x : Int) (sig : Sig) :
    (c.state = State.send_wait_1 →
      (Channel.update_accept privkey c x sig).map
          (fun r => (r.1.state, r.1.anchor.scriptSig.sig, r.1.our.nValue, r.1.their.nValue))
        = Except.ok (State.normal, sig, c.our.nValue - x, c.their.nValue + x)) ∧
    (c.state = State.send_wait_1_5 → 0 ≤ x →
      (Channel.update_signature c x sig).map
          (fun r => (r.1.state, r.1.anchor.scriptSig.sig, r.1.our.nValue, r.1.their.nValue))
        = Except.ok (State.normal, sig, c.our.nValue + x, c.their.nValue - x)) := by
  constructor
  · intro h
    simp [Channel.update_accept, h, Except.map]
  · intro h hx
    simp [Channel.update_signature, h, hx, Except.map]

/-- C1 witness: at the concrete record `cSend1` and the raw bytes
`[9]`, `pkt_update_accept` commits and stores the unverifiable value. -/
theorem update_handlers_store_unverified_witness :
    (Channel.update_accept 3 cSend1 2 (Sig.raw [9])).map
        (fun r => (r.1.state, r.1.anchor.scriptSig.sig, r.1.our.nValue, r.1.their.nValue))
      = Except.ok (State.normal, Sig.raw [9], cSend1.our.nValue - 2, cSend1.their.nValue + 2) :=
  (update_handlers_store_unverified 3 cSend1 2 (Sig.raw [9])).1 rfl

/-- C1 counterexample: fed the non-signature bytes `[9]`, the source
handler `pkt_update_accept` commits the balance change and returns to
`normal` holding a `their_sig` that is not an ECDSA signature by anyone
over anything, while the handler the spec describes
(`update_accept_checked`) rejects the same input with an
invalid-signature error. -/
theorem update_accept_skips_verification :
    (Channel.update_accept 3 cSend1 2 (Sig.raw [9])).map
        (fun r => (r.1.state, r.1.anchor.scriptSig.sig.isEcdsa, r.1.our.nValue))
      = Except.ok (State.normal, false, 8) ∧
    update_accept_checked 5 3 cSend1 2 (Sig.raw [9]) = Except.error Err.verifyFailed := by
  decide

/-- C2 (amended): a node in `normal` handling `pkt_update(x)` with
`x ≥ 0` (the only assertion) temporarily sets `our_balance` to
`our_balance − x` and `their_balance` to `their_balance + x` — with no
non-negativity requirement on the temporary balances — signs the mirror
commitment built from those temporary balances, reverts, sends
`pkt_update_accept(x, sig)` and enters `send_wait_1_5`; the persisted
record carries the balances it had before the step. -/
theorem update_signs_decremented_mirror (privkey : Nat) (c : Channel) (x : Int)
    (h : c.state = State.normal) (hx : 0 ≤ x) :
    Channel.update privkey c x =
      Except.ok ({ c with state := State.send_wait_1_5 },
        [Call.update_accept x (Sig.ecdsa privkey
          { redeem := c.anchor.scriptSig.redeem
            prevout := c.anchor.prevout
            outs := [(c.their.nValue + x, c.their.scriptPubKey),
                     (c.our.nValue - x, c.our.scriptPubKey)] })]) := by
  simp [Channel.update, h, hx, Channel.sig_for_them, TxOut.pair]

/-- C2 witness: the amended behaviour at the concrete record `cNormal`
with x = 1. -/
theorem update_signs_decremented_mirror_witness :
    Channel.update 3 cNormal 1 =
      Except.ok ({ cNormal with state := State.send_wait_1_5 },
        [Call.update_accept 1 (Sig.ecdsa 3
          { redeem := cNormal.anchor.scriptSig.redeem
            prevout := cNormal.anchor.prevout
            outs := [(cNormal.their.nValue + 1, cNormal.their.scriptPubKey),
                     (cNormal.our.nValue - 1, cNormal.our.scriptPubKey)] })]) :=
  update_signs_decremented_mirror 3 cNormal 1 rfl (by decide)

/-- C2 counterexample: with `our = 10`, `their = 0` and `x = 1` the
claim's temporary balance `their − x` is negative, so under the claim the
handler could not proceed; the source handler succeeds anyway, and the
mirror it signs carries the balances `(their + x, our − x) = (1, 9)`,
not the claim's `(their − x, our + x) = (−1, 11)`. -/
theorem update_moves_balance_opposite :
    (let c0 : Channel := { cNormal with their.nValue := 0 };
     c0.their.nValue - 1 < 0 ∧
     Channel.update 3 c0 1 =
       Except.ok ({ c0 with state := State.send_wait_1_5 },
         [Call.update_accept 1 (Sig.ecdsa 3
           { redeem := redeem0, prevout := (42, 0), outs := [(1, 2), (9, 1)] })]) ∧
     Sig.ecdsa 3 { redeem := redeem0, prevout := (42, 0), outs := [(1, 2), (9, 1)] } ≠
       Sig.ecdsa 3 { redeem := redeem0, prevout := (42, 0), outs := [(-1, 2), (11, 1)] }) := by
  decide

/-- C4 (amended): `cmd_send` performs no local balance check — in state
`normal` it records the command id, sends `pkt_update(x)` to the peer and
enters `send_wait_1` for every amount `x`, including `x > our_balance`;
the record's balances are untouched at this step. -/
theorem send_makes_rpc_unconditionally (c : Channel) (cmd_id : Nat) (x : Int)
    (h : c.state = State.normal) :
    Channel.send c cmd_id x =
      Except.ok ({ c with cmd_id := some cmd_id, state := State.send_wait_1 },
                 [Call.update x]) := by
  simp [Channel.send, h]

/-- C4 witness: the amended behaviour at `cNormal` with x = 11. -/
theorem send_makes_rpc_unconditionally_witness :
    Channel.send cNormal 0 11 =
      Except.ok ({ cNormal with cmd_id := some 0, state := State.send_wait_1 },
                 [Call.update 11]) :=
  send_makes_rpc_unconditionally cNormal 0 11 rfl

/-- C4 counterexample: with `our_balance = 10` the command `cmd_send(11)`
does not fail locally — the handler succeeds and emits the outbound
`pkt_update(11)` RPC to the peer. -/
theorem send_overdraft_reaches_peer :
    cNormal.our.nValue < 11 ∧
    Channel.send cNormal 0 11 =
      Except.ok ({ cNormal with cmd_id := some 0, state := State.send_wait_1 },
                 [Call.update 11]) := by
  decide

/-- Reduction of a successful bind in the `Except` monad. -/
theorem except_bind_ok {ε α β : Type} (a : α) (f : α → Except ε β) :
    (Except.ok a : Except ε α) >>= f = f a := rfl

/-- C3: a completed `cmd_send(x)` run with x > 0 from `normal` on both
sides leaves the sender with `our_balance − x` (and `their_balance + x`)
and the receiver with `their_balance − x` (and its own `our_balance + x`). -/
theorem complete_send_moves_x (verify : List Elem → List Nat → Tx → Bool)
    (privA privB : Nat) (a b : Channel) (cmd_id : Nat) (x : Int)
    (ha : a.state = State.normal) (hb : b.state = State.normal) (hx : 0 < x) :
    (complete_send verify privA privB a b cmd_id x).map
        (fun r => (r.1.our.nValue, r.1.their.nValue, r.2.our.nValue, r.2.their.nValue))
      = Except.ok (a.our.nValue - x, a.their.nValue + x,
                   b.our.nValue + x, b.their.nValue - x) := by
  simp [complete_send, Channel.handle, Channel.send, Channel.update,
        Channel.update_accept, Channel.update_signature, ha, hb, hx.le,
        except_bind_ok, Except.map]

/-- C3 witness: the completed run between the concrete records `cNormal`
(sender, 10/5) and `cPeer` (receiver, 5/10) with x = 1. -/
theorem complete_send_moves_x_witness :
    (complete_send verifyT 3 5 cNormal cPeer 0 1).map
        (fun r => (r.1.our.nValue, r.1.their.nValue, r.2.our.nValue, r.2.their.nValue))
      = Except.ok (cNormal.our.nValue - 1, cNormal.their.nValue + 1,
                   cPeer.our.nValue + 1, cPeer.their.nValue - 1) :=
  complete_send_moves_x verifyT 3 5 cNormal cPeer 0 1 rfl rfl (by decide)

/-- A search that both requires and forbids the key `dest` finds nothing. -/
theorem find?_and_self_none (l : List (Nat × Nat × Nat)) (dest : Nat) :
    List.find? (fun a => !decide (a.1 = dest) && decide (a.1 = dest)) l = none := by
  rw [List.find?_eq_none]
  intro x _
  by_cases h : x.1 = dest <;> simp [h]

/-- Searching for key `d` among the rows whose key is not `dest` is the
same as searching everywhere, when `d ≠ dest`. -/
theorem find?_and_ne (l : List (Nat × Nat × Nat)) (dest d : Nat) (h : ¬ d = dest) :
    List.find? (fun a => !decide (a.1 = dest) && decide (a.1 = d)) l
      = List.find? (fun r => decide (r.1 = d)) l := by
  induction l with
  | nil => rfl
  | cons a t ih =>
    by_cases hd : a.1 = d
    · have ha : ¬ a.1 = dest := fun hh => h (hd.symm.trans hh)
      simp [List.find?_cons, hd, ha, h]
    · simp [List.find?_cons, hd, ih]

/-- Effect of the DELETE-then-INSERT route replacement on lookups: the
replaced destination now maps to the new row, every other destination is
untouched. -/
theorem lookup_after_replace (routes : List (Nat × Nat × Nat))
    (dest cost nh d : Nat) :
    ((List.filter (fun r => ¬ r.1 = dest) routes ++ [(dest, cost, nh)]).find?
        (fun r => r.1 = d)).map (fun r => r.2)
      = if d = dest then some (cost, nh)
        else (routes.find? (fun r => r.1 = d)).map (fun r => r.2) := by
  by_cases h : d = dest
  · subst h
    simp [find?_and_self_none]
  · have h2 : ¬ dest = d := fun hh => h hh.symm
    simp [find?_and_ne routes dest d h, h, h2]

/-- C8: the routing update is a no-op when the destination is the node
itself, and when an existing route is at least as cheap (ties included);
otherwise it replaces the route row for the destination with
`(destination, cost, next_hop)`, leaves every other route and the peer
table unchanged, and calls `p.update(self, destination, cost + fee)` for
every peer row `(p, fee)`. -/
theorem router_update_rule (self : Nat) (st : RouterState) (nh dest cost : Nat) :
    (dest = self → router_update self st nh dest cost = (st, [])) ∧
    (∀ c0 nh0, st.lookup dest = some (c0, nh0) → c0 ≤ cost →
      router_update self st nh dest cost = (st, [])) ∧
    (¬ dest = self →
     (st.lookup dest = none ∨ (∀ c0 nh0, st.lookup dest = some (c0, nh0) → cost < c0)) →
      ((router_update self st nh dest cost).1.lookup dest = some (cost, nh) ∧
       (∀ d, ¬ d = dest → (router_update self st nh dest cost).1.lookup d = st.lookup d) ∧
       (router_update self st nh dest cost).1.peers = st.peers ∧
       (router_update self st nh dest cost).2 =
         List.map (fun p => { peer := p.1, next_hop := self, destination := dest,
                              cost := cost + p.2 }) st.peers)) := by
  refine ⟨?_, ?_, ?_⟩
  · intro h
    simp [router_update, h]
  · intro c0 nh0 hl hc
    cases hf : List.find? (fun r => r.1 = dest) st.routes with
    | none =>
      rw [RouterState.lookup, hf] at hl
      cases hl
    | some r =>
      have hr : r.2 = (c0, nh0) := by
        rw [RouterState.lookup, hf] at hl
        simpa using hl
      have hr1 : r.2.1 = c0 := by rw [hr]
      simp [router_update, hf, hr1, hc]
  · intro hs hor
    have hrow : ∀ c, (List.find? (fun r => r.1 = dest) st.routes).map
        (fun r => r.2.1) = some c → cost < c := by
      intro c hc
      cases hf : List.find? (fun r => r.1 = dest) st.routes with
      | none => rw [hf] at hc; cases hc
      | some r =>
        rcases hor with hnone | hlt
        · rw [RouterState.lookup, hf] at hnone
          cases hnone
        · have hmem : st.lookup dest = some (r.2.1, r.2.2) := by
            rw [RouterState.lookup, hf]
            simp
          have := hlt r.2.1 r.2.2 hmem
          rw [hf] at hc
          simp at hc
          rw [← hc]
          exact this
    have hcond : ((match (List.find? (fun r => r.1 = dest) st.routes).map
          (fun r => r.2.1) with
        | some c => decide (c ≤ cost)
        | none => false) || decide (dest = self)) = false := by
      cases hf : (List.find? (fun r => r.1 = dest) st.routes).map (fun r => r.2.1) with
      | none => simp [hs]
      | some c =>
        have := hrow c hf
        simp [hs]
        omega
    have hres : router_update self st nh dest cost =
        ({ st with routes := List.filter (fun r => ¬ r.1 = dest) st.routes
                              ++ [(dest, cost, nh)] },
         List.map (fun p => { peer := p.1, next_hop := self, destination := dest,
                              cost := cost + p.2 }) st.peers) := by
      rw [router_update]
      simp only [hcond, Bool.false_eq_true, if_false]
    rw [hres]
    refine ⟨?_, ?_, rfl, rfl⟩
    · simp only [RouterState.lookup]
      rw [lookup_after_replace, if_pos rfl]
    · intro d hd
      simp only [RouterState.lookup]
      rw [lookup_after_replace, if_neg hd]

/-- C8 witness: at the concrete routing state `rs0` (route to 11 of cost
50 via 3; peers 3 and 4 with fees 100 and 7), `update(9, 11, 20)` is an
improvement: the route row becomes `(11, 20, 9)` and both peers are told
`update(self, 11, 20 + fee)`. -/
theorem router_update_rule_witness :
    (router_update 1 rs0 9 11 20).1.lookup 11 = some (20, 9) ∧
    (router_update 1 rs0 9 11 20).1.peers = rs0.peers ∧
    (router_update 1 rs0 9 11 20).2 =
      List.map (fun p => { peer := p.1, next_hop := 1, destination := 11,
                           cost := 20 + p.2 }) rs0.peers := by
  have h := (router_update_rule 1 rs0 9 11 20).2.2 (by decide)
    (Or.inr (fun c0 nh0 hl => by
      have : c0 = 50 := by
        have : RouterState.lookup rs0 11 = some (50, 3) := by decide
        rw [this] at hl
        cases hl
        rfl
      omega))
  exact ⟨h.1, h.2.2.1, h.2.2.2⟩

/-- Reading back the key just written returns the new record. -/
theorem store_get_put (db : Store) (a : Nat) (c : Channel) :
    store_get (store_put db a c) a = some c := by
  rw [store_get, store_put, List.find?_append]
  have hnone : List.find? (fun r => r.1 = a) (List.filter (fun r => ¬ r.1 = a) db)
      = none := by
    rw [List.find?_eq_none]
    intro x hx
    rw [List.mem_filter] at hx
    simp at hx ⊢
    exact hx.2
  rw [hnone]
  simp [List.find?]

/-- C9 (amended): cooperative close sets the record's state to `end` and
persists it under the peer key — the record is not deleted.  On
`pkt_close` in `normal` the node broadcasts the fully signed settlement,
sends `pkt_close_ack`, and (through the scriptSig aliasing in
`signed_settlement`) stores the received settlement signature in the
record; on `pkt_close_ack` in `close_wait_1` it completes the command;
in both cases the store still holds a record for the peer afterwards,
now in state `end`. -/
theorem close_sets_end_and_persists (verify : List Elem → List Nat → Tx → Bool)
    (privkey : Nat) (db : Store) (addr : Nat) (c : Channel) (sig : Sig)
    (hget : store_get db addr = some c) :
    (c.state = State.normal → ∀ tx,
      Channel.signed_settlement verify privkey c sig = Except.ok tx →
      workerStep verify privkey db addr (ChanTask.pkt_close sig) =
        (store_put db addr { c with anchor.scriptSig.sig := sig, state := State.end_ },
         [Call.broadcast tx, Call.close_ack], false) ∧
      store_get (workerStep verify privkey db addr (ChanTask.pkt_close sig)).1 addr =
        some { c with anchor.scriptSig.sig := sig, state := State.end_ }) ∧
    (c.state = State.close_wait_1 →
      workerStep verify privkey db addr ChanTask.pkt_close_ack =
        (store_put db addr { c with cmd_id := none, state := State.end_ }, [], false) ∧
      store_get (workerStep verify privkey db addr ChanTask.pkt_close_ack).1 addr =
        some { c with cmd_id := none, state := State.end_ }) := by
  constructor
  · intro hst tx htx
    have hstep : workerStep verify privkey db addr (ChanTask.pkt_close sig) =
        (store_put db addr { c with anchor.scriptSig.sig := sig, state := State.end_ },
         [Call.broadcast tx, Call.close_ack], false) := by
      rw [workerStep, hget]
      simp [Channel.handle, Channel.close_packet, hst, htx]
    exact ⟨hstep, by rw [hstep]; exact store_get_put db addr _⟩
  · intro hst
    have hstep : workerStep verify privkey db addr ChanTask.pkt_close_ack =
        (store_put db addr { c with cmd_id := none, state := State.end_ }, [], false) := by
      rw [workerStep, hget]
      simp [Channel.handle, Channel.close_ack, hst]
    exact ⟨hstep, by rw [hstep]; exact store_get_put db addr _⟩

/-- C9 witness: both close steps at concrete stores, with the record
still present (state `end`, and for `pkt_close` the received settlement
signature stored) after each. -/
theorem close_sets_end_and_persists_witness :
    (workerStep verifyT 3 db0 7 (ChanTask.pkt_close (Sig.raw [1])) =
       (store_put db0 7 { cNormal with anchor.scriptSig.sig := Sig.raw [1],
                                       state := State.end_ },
        [Call.broadcast tx0, Call.close_ack], false) ∧
     store_get (workerStep verifyT 3 db0 7 (ChanTask.pkt_close (Sig.raw [1]))).1 7 =
       some { cNormal with anchor.scriptSig.sig := Sig.raw [1], state := State.end_ }) ∧
    (workerStep verifyT 3 db1 7 ChanTask.pkt_close_ack =
       (store_put db1 7 { cCloseW with cmd_id := none, state := State.end_ }, [], false) ∧
     store_get (workerStep verifyT 3 db1 7 ChanTask.pkt_close_ack).1 7 =
       some { cCloseW with cmd_id := none, state := State.end_ }) :=
  ⟨(close_sets_end_and_persists verifyT 3 db0 7 cNormal (Sig.raw [1])
      (by decide)).1 rfl tx0 (by decide),
   (close_sets_end_and_persists verifyT 3 db1 7 cCloseW (Sig.raw [1])
      (by decide)).2 rfl⟩

/-- C9 counterexample: after handling `pkt_close` (and after
`pkt_close_ack`) the store still holds a record for peer 7 — the claim's
"no record for that peer remains in the store" is false; the record is
persisted with state `end` (and, for `pkt_close`, the received settlement
signature written into it by the aliased scriptSig). -/
theorem close_leaves_record_in_store :
    store_get (workerStep verifyT 3 db0 7 (ChanTask.pkt_close (Sig.raw [1]))).1 7 =
      some { cNormal with anchor.scriptSig.sig := Sig.raw [1], state := State.end_ } ∧
    store_get (workerStep verifyT 3 db1 7 ChanTask.pkt_close_ack).1 7 =
      some { cCloseW with cmd_id := none, state := State.end_ } := by
  decide

/-- C10: per-task atomicity of persistence — the worker writes the record
back only when the handler returns; if the handler raises, the store is
unchanged, a best-effort error message goes to the peer, and the worker
dies. -/
theorem workerStep_atomic (verify : List Elem → List Nat → Tx → Bool)
    (privkey : Nat) (db : Store) (addr : Nat) (task : ChanTask) :
    (∀ e, Channel.handle verify privkey
        ((store_get db addr).getD (Channel.init addr)) task = Except.error e →
      workerStep verify privkey db addr task = (db, [Call.error_out], true)) ∧
    (∀ c1 calls, Channel.handle verify privkey
        ((store_get db addr).getD (Channel.init addr)) task = Except.ok (c1, calls) →
      workerStep verify privkey db addr task = (store_put db addr c1, calls, false)) := by
  constructor
  · intro e he
    rw [workerStep, he]
  · intro c1 calls hok
    rw [workerStep, hok]

/-- C10 witness: `pkt_error` always raises, so at the concrete store
`db0` the record for peer 7 is untouched, the error message is sent and
the worker dies. -/
theorem workerStep_atomic_witness :
    workerStep verifyT 3 db0 7 ChanTask.pkt_error = (db0, [Call.error_out], true) :=
  (workerStep_atomic verifyT 3 db0 7 ChanTask.pkt_error).1 Err.counterparty rfl
